import Mathlib

/-!
Verification of the jschannel message channel (src/jschannel.js) against its
natural-language specification.

The development is a shallow embedding of the source file:

* `JVal` models the dynamically typed JavaScript values a channel touches
  (`null`, `undefined`, booleans, numbers, strings, arrays, plain objects,
  function values, and the callback stubs that the dispatcher splices into
  request parameters, lines 176-181 of the source).
* `ChannelState` holds the per-channel private variables (lines 51-62):
  the method registry `regTbl`, the transaction table `tranTbl`, the
  transaction id counter, the ready flag and the pending outbound queue.
* Observable interactions with the outside world (transport sends and
  invocations of locally held continuations) are recorded as a list of
  `Effect`s; a thrown JavaScript value is an `Except.error` carrying the
  thrown `JVal`.  The debug logging of the source is not modelled.
* Request handlers are modelled as functions from the received params to a
  `HandlerScript`: the finite sequence of transaction-handle operations the
  handler performs followed by its outcome (return a value or throw one).
  The transaction-handle operations themselves (`transComplete`,
  `transError`, `transInvoke`) are translated directly from
  `createTransaction` (lines 77-125).
* Serialization is an external collaborator: a raw inbound payload is
  modelled by `Payload` as either a value that `JSON.parse` yields or a
  malformed text on which `JSON.parse` throws; outbound messages are carried
  in effects as structured values.  `jsonStr` models `JSON.stringify`
  where its output string matters (the error-normalization policy,
  lines 210-216).
-/

/-- A JavaScript value as the channel manipulates one.  `fn` is an opaque
local function value (identified by a tag so that distinct continuations can
be told apart); `stub` is a callback stub the dispatcher splices into the
params of an inbound request for a declared callback path (lines 176-181). -/
inductive JVal where
  | null
  | undefined
  | bool (b : Bool)
  | num (n : Int)
  | str (s : String)
  | arr (elems : List JVal)
  | obj (fields : List (String × JVal))
  | fn (tag : Nat)
  | stub (path : String)

/-- The JavaScript `typeof` operator restricted to `JVal` (note
`typeof null = "object"`). -/
def JVal.typeof : JVal → String
  | .null => "object"
  | .undefined => "undefined"
  | .bool _ => "boolean"
  | .num _ => "number"
  | .str _ => "string"
  | .arr _ => "object"
  | .obj _ => "object"
  | .fn _ => "function"
  | .stub _ => "function"

/-- JavaScript truthiness of a `JVal` (NaN is not representable). -/
def truthy : JVal → Bool
  | .null => false
  | .undefined => false
  | .bool b => b
  | .num n => n != 0
  | .str s => s != ""
  | .arr _ => true
  | .obj _ => true
  | .fn _ => true
  | .stub _ => true

/-- `e instanceof Array`. -/
def isArr : JVal → Bool
  | .arr _ => true
  | _ => false

/-- String conversion as used for property keys and string concatenation
("…" + id).  Only numbers and strings occur in those positions in the
source; the remaining cases follow the JavaScript defaults (the array case
approximates `Array.prototype.toString`, the function case stands in for
the source text of a function). -/
def jsStr : JVal → String
  | .null => "null"
  | .undefined => "undefined"
  | .bool b => cond b "true" "false"
  | .num n => toString n
  | .str s => s
  | .arr _ => ""
  | .obj _ => "[object Object]"
  | .fn _ => "function"
  | .stub p => p

/-- Property read `v[k]`: `undefined` when absent or when the receiver has
no such own property.  Reads on `null`/`undefined` receivers throw; callers
guard that case explicitly. -/
def getField (v : JVal) (k : String) : JVal :=
  match v with
  | .obj fs => (fs.lookup k).getD .undefined
  | .arr xs =>
    match k.toNat? with
    | some i => (xs.get? i).getD .undefined
    | none => .undefined
  | _ => .undefined

/-- Association-list insertion with JavaScript object-assignment semantics:
an existing key keeps its position, a new key is appended. -/
def insertAssoc {α : Type} (l : List (String × α)) (k : String) (v : α) :
    List (String × α) :=
  match l with
  | [] => [(k, v)]
  | (k', v') :: rest =>
    if k' = k then (k, v) :: rest else (k', v') :: insertAssoc rest k v

/-- Association-list removal (`delete tbl[k]`). -/
def removeAssoc {α : Type} (l : List (String × α)) (k : String) :
    List (String × α) :=
  l.filter (fun p => p.1 != k)

/-- Set a list element, extending with holes (modelled as `undefined`) when
the index is past the end. -/
def setElem (xs : List JVal) (i : Nat) (x : JVal) : List JVal :=
  match xs, i with
  | [], 0 => [x]
  | [], Nat.succ j => .undefined :: setElem [] j x
  | _ :: rest, 0 => x :: rest
  | y :: rest, Nat.succ j => y :: setElem rest j x

/-- Property write `v[k] = x`.  Writes on plain objects insert/replace;
writes on arrays with a numeric key set the element; writes on primitives
are silently ignored (non-strict mode); a named (non-index) write on an
array is invisible to this model. -/
def setProp (v : JVal) (k : String) (x : JVal) : JVal :=
  match v with
  | .obj fs => .obj (insertAssoc fs k x)
  | .arr xs =>
    match k.toNat? with
    | some i => .arr (setElem xs i x)
    | none => v
  | _ => v

/-- The value `JSON.parse` throws on malformed text (a `SyntaxError`). -/
def parseErrVal : JVal := .obj [("name", .str "SyntaxError")]

/-- The value thrown on a property access through `null`/`undefined` or on
invoking a non-function (a `TypeError`). -/
def typeErrVal : JVal := .obj [("name", .str "TypeError")]

/-- Is a value dropped by `JSON.stringify` (omitted as an object member,
rendered `null` as an array element, `undefined` at top level)? -/
def jsonOmitted : JVal → Bool
  | .undefined => true
  | .fn _ => true
  | .stub _ => true
  | _ => false

/-- Minimal JSON escaping of one character (double quote and backslash; the
strings the channel serializes contain no control characters). -/
def jsonEscapeChars : List Char → String
  | [] => ""
  | c :: rest =>
    (if c = '"' then "\\\""
     else if c = '\\' then "\\\\"
     else String.singleton c) ++ jsonEscapeChars rest

/-- Minimal JSON string escaping. -/
def jsonEscape (s : String) : String := jsonEscapeChars s.data

mutual

/-- `JSON.stringify` on a serializable `JVal`, producing the JSON text.
Only reached through `jsonStringifyVal`, which handles the values
`JSON.stringify` does not serialize. -/
def jsonStr : JVal → String
  | .null => "null"
  | .undefined => "null"
  | .bool b => cond b "true" "false"
  | .num n => toString n
  | .str s => "\"" ++ jsonEscape s ++ "\""
  | .arr xs => "[" ++ String.intercalate "," (jsonArrItems xs) ++ "]"
  | .obj fs => "\x7b" ++ String.intercalate "," (jsonObjItems fs) ++ "\x7d"
  | .fn _ => "null"
  | .stub _ => "null"

/-- Array elements: omitted values render as `null`. -/
def jsonArrItems : List JVal → List String
  | [] => []
  | x :: rest =>
    (if jsonOmitted x then "null" else jsonStr x) :: jsonArrItems rest

/-- Object members: omitted values are skipped. -/
def jsonObjItems : List (String × JVal) → List String
  | [] => []
  | (k, x) :: rest =>
    if jsonOmitted x then jsonObjItems rest
    else ("\"" ++ jsonEscape k ++ "\":" ++ jsonStr x) :: jsonObjItems rest

end

/-- `JSON.stringify` as a JavaScript-level operation: `undefined` (not a
string) for the values it does not serialize, otherwise the JSON text.  It
never throws on a `JVal` (no cyclic structures), so the
`catch (e2) { message = e.toString(); }` fallback of lines 213-215 is
unreachable in this model. -/
def jsonStringifyVal (v : JVal) : JVal :=
  if jsonOmitted v then .undefined else .str (jsonStr v)

/-- An entry of the transaction table `tranTbl` (lines 56, 162, 342):
`tin` is an inbound request we are answering (`{ t: 'in' }`); `tout` is an
outstanding request we sent, holding the extracted callback map and the
`error`/`success` continuations recorded by `query`. -/
inductive TranEntry where
  | tin
  | tout (cbs : List (String × JVal)) (err : JVal) (succ : JVal)

/-- A sequence of transaction-handle operations a request handler performs
during its invocation (the methods of the object built by
`createTransaction`, lines 81-124). -/
inductive HAct where
  | complete (v : JVal)
  | error (e m : JVal)
  | invoke (cb : String) (v : JVal)
  | delayReturn (v : JVal)

/-- How a handler invocation ends: return a value or throw one. -/
inductive HOutcome where
  | ret (v : JVal)
  | thr (e : JVal)

/-- The observable behaviour of one handler invocation. -/
structure HandlerScript where
  acts : List HAct
  out : HOutcome

/-- An entry of the method registry `regTbl` (line 53): a bound user
handler, modelled by the script it runs on the params it receives, or the
internal `onReady` handler bound to `__ready` at construction (line 356). -/
inductive RegEntry where
  | user (h : JVal → HandlerScript)
  | ready

/-- The private per-channel state (lines 51-62). -/
structure ChannelState where
  regTbl : List (String × RegEntry)
  tranTbl : List (String × TranEntry)
  curTranId : Int
  ready : Bool
  pendingQueue : List JVal

/-- Construction-time configuration (`Channel.build(tgt_win, tgt_origin,
msg_scope)`): the peer origin, the optional scope, and whether the target
window is this context's parent (line 67). -/
structure Config where
  tgt_origin : String
  msg_scope : Option String
  isChild : Bool

/-- An observable interaction with the world outside the channel state:
a transport send (`tgt_win.postMessage(JSON.stringify(msg), remoteOrigin)`,
carried unserialized), an invocation of a locally held function value, or
`e.stopPropagation()` on a handled event (line 256). -/
inductive Effect where
  | send (msg : JVal)
  | call (f : JVal) (args : List JVal)
  | stopPropagation

/-- The closure state of one `createTransaction` handle (lines 78-79). -/
structure TransSt where
  delay : Bool
  compl : Bool

/-- An inbound raw transport event: the sender origin and the payload,
pre-classified by whether `JSON.parse` accepts it (serialization is an
external collaborator; `parsed v` is the value it yields, `malformed` a
text on which it throws). -/
inductive Payload where
  | parsed (v : JVal)
  | malformed

/-- An inbound raw transport event. -/
structure MsgEvent where
  origin : String
  data : Payload

/-- The truthiness of the configured scope (`msg_scope` is either absent or
a string; an empty string is falsy, line 144). -/
def scopeTruthy (cfg : Config) : Bool :=
  match cfg.msg_scope with
  | some s => s != ""
  | none => false

/-- `scopeMethod` (lines 264-267). -/
def scopeMethod (cfg : Config) (m : String) : String :=
  match cfg.msg_scope with
  | some s => if s ≠ "" then s ++ "::" ++ m else m
  | none => m

/-- The `postMessage` wrapper (lines 271-279): queue the message while the
channel is not ready, otherwise hand it to the transport. -/
def postMessage (st : ChannelState) (msg : JVal) :
    Except JVal (ChannelState × List Effect) :=
  if ¬ truthy msg then .error (.str "postMessage called with null message")
  else if ¬ st.ready then
    .ok ({ st with pendingQueue := st.pendingQueue ++ [msg] }, [])
  else .ok (st, [.send msg])

/-- The `complete` method of a transaction handle (lines 105-114): mark the
closure completed, verify the transaction is in the table and inbound,
remove it from the table, then post `{ id, result: v }`.  A failed check
throws the source's string. -/
def transComplete (idv : JVal) (ts : TransSt) (st : ChannelState)
    (v : JVal) : TransSt × Except JVal (ChannelState × List Effect) :=
  let ts := { ts with compl := true }
  (ts,
    match st.tranTbl.lookup (jsStr idv) with
    | none =>
      .error (.str ("complete called for non-existant message: " ++ jsStr idv))
    | some ent =>
      match ent with
      | .tin =>
        let st := { st with tranTbl := removeAssoc st.tranTbl (jsStr idv) }
        postMessage st (.obj [("id", idv), ("result", v)])
      | .tout _ _ _ =>
        .error (.str "complete called for message we *sent*.  that's not right"))

/-- The `error` method of a transaction handle (lines 93-104): mark
completed, verify in-table and inbound, remove, then post
`{ id, error, message }`. -/
def transError (idv : JVal) (ts : TransSt) (st : ChannelState)
    (e msg : JVal) : TransSt × Except JVal (ChannelState × List Effect) :=
  let ts := { ts with compl := true }
  (ts,
    match st.tranTbl.lookup (jsStr idv) with
    | none =>
      .error (.str ("error called for non-existant message: " ++ jsStr idv))
    | some ent =>
      match ent with
      | .tin =>
        let st := { st with tranTbl := removeAssoc st.tranTbl (jsStr idv) }
        postMessage st (.obj [("id", idv), ("error", e), ("message", msg)])
      | .tout _ _ _ =>
        .error (.str "error called for message we *sent*.  that's not right"))

/-- The loop of lines 86-87: is `cb` strictly equal to one of the declared
callback values?  (The declared list is an array of path strings in every
message `query` produces; a strict comparison of the string `cb` with a
non-string element is false.) -/
def cbDeclared (declared : JVal) (cb : String) : Bool :=
  match declared with
  | .arr xs => xs.any (fun x => match x with | .str s => s == cb | _ => false)
  | _ => false

/-- The `invoke` method of a transaction handle (lines 82-92): verify
in-table, verify the callback name is declared, then post
`{ id, callback, params }`. -/
def transInvoke (idv declared : JVal) (ts : TransSt) (st : ChannelState)
    (cb : String) (v : JVal) :
    TransSt × Except JVal (ChannelState × List Effect) :=
  (ts,
    if (st.tranTbl.lookup (jsStr idv)).isNone then
      .error (.str
        ("attempting to invoke a callback of a non-existant transaction: "
          ++ jsStr idv))
    else if ¬ cbDeclared declared cb then
      .error (.str ("request supports no such callback '" ++ cb ++ "'"))
    else postMessage st (.obj [("id", idv), ("callback", .str cb), ("params", v)]))

/-- Run the sequence of transaction-handle operations a handler performs
(the handler body seen through the handle), threading the handle closure
state, the channel state and the emitted effects; `some e` in the last
component is a value thrown by a handle operation that the handler lets
escape. -/
def runActs (idv declared : JVal) :
    List HAct → TransSt → ChannelState → List Effect →
    TransSt × ChannelState × List Effect × Option JVal
  | [], ts, st, effs => (ts, st, effs, none)
  | a :: rest, ts, st, effs =>
    match a with
    | .delayReturn v =>
      -- lines 115-120: only a boolean argument updates the flag
      let ts :=
        if v.typeof = "boolean" then
          { ts with delay := match v with | .bool b => b | _ => false }
        else ts
      runActs idv declared rest ts st effs
    | .invoke cb v =>
      match transInvoke idv declared ts st cb v with
      | (ts, .ok (st, effs')) => runActs idv declared rest ts st (effs ++ effs')
      | (ts, .error ex) => (ts, st, effs, some ex)
    | .complete v =>
      match transComplete idv ts st v with
      | (ts, .ok (st, effs')) => runActs idv declared rest ts st (effs ++ effs')
      | (ts, .error ex) => (ts, st, effs, some ex)
    | .error e m =>
      match transError idv ts st e m with
      | (ts, .ok (st, effs')) => runActs idv declared rest ts st (effs ++ effs')
      | (ts, .error ex) => (ts, st, effs, some ex)

/-- The handler-exception normalization of the dispatcher's catch block
(lines 186-216), mapping a thrown value to the `(error, message)` pair sent
to the remote caller; its own `Except.error` is the `TypeError` raised by
reading `.error` of a thrown `null` (line 201).

Line 204 of the source reads `messasge = e.message`: the misspelled
identifier assigns an accidental global, the local `message` stays `null`,
and the re-derivation of lines 210-216 serializes the whole thrown value
instead. -/
def normalizeError (e : JVal) : Except JVal (JVal × JVal) :=
  -- var error = "runtime_error"; var message = null;
  if e.typeof = "string" then
    .ok (.str "runtime_error", e)
  else if e.typeof = "object" then
    if truthy e && isArr e &&
        (match e with | .arr xs => xs.length == 2 | _ => false) then
      -- a two-element array: [code, message]
      let err := getField e "0"
      let msg := getField e "1"
      .ok (err, match msg with | .null => jsonStringifyVal e | _ => msg)
    else
      match e with
      | .null => .error typeErrVal    -- typeof e.error on null throws
      | _ =>
        if (getField e "error").typeof = "string" then
          let err := getField e "error"
          let msgF := getField e "message"
          if ¬ truthy msgF then .ok (err, .str "")
          else if msgF.typeof = "string" then
            -- the `messasge` typo: message stays null, then line 212 runs
            .ok (err, jsonStringifyVal e)
          else
            -- e = e.message (line 205), then line 212 serializes it
            .ok (err, jsonStringifyVal msgF)
        else .ok (.str "runtime_error", jsonStringifyVal e)
  else .ok (.str "runtime_error", jsonStringifyVal e)

mutual

/-- `pruneFunctions(path, obj)` of `query` (lines 321-335), functionally:
returns the pruned structure together with the recorded `callbacks`
path-to-function pairs and the `callbackNames` list, in traversal order.
The walk enters every value of `typeof === 'object'` — plain objects,
arrays (`typeof` of an array is `"object"`) and `null`; every value of
`typeof === 'function'` is recorded under its slash-joined path and
deleted (a deleted array element leaves a hole, modelled `undefined`). -/
def pruneFns (path : String) : JVal → JVal × List (String × JVal) × List String
  | .obj fs =>
    let r := pruneFields path fs
    (.obj r.1, r.2.1, r.2.2)
  | .arr xs =>
    let r := pruneElems path 0 xs
    (.arr r.1, r.2.1, r.2.2)
  | v => (v, [], [])

/-- The `for (var k in obj)` loop of `pruneFunctions` over an object's own
enumerable keys, in insertion order. -/
def pruneFields (path : String) :
    List (String × JVal) →
    List (String × JVal) × List (String × JVal) × List String
  | [] => ([], [], [])
  | (k, x) :: rest =>
    let np := path ++ (if path.length ≠ 0 then "/" else "") ++ k
    if x.typeof = "function" then
      let r := pruneFields path rest
      (r.1, (np, x) :: r.2.1, np :: r.2.2)
    else if x.typeof = "object" then
      let rx := pruneFns np x
      let r := pruneFields path rest
      ((k, rx.1) :: r.1, rx.2.1 ++ r.2.1, rx.2.2 ++ r.2.2)
    else
      let r := pruneFields path rest
      ((k, x) :: r.1, r.2.1, r.2.2)

/-- The same loop over an array's index keys `"0"`, `"1"`, … -/
def pruneElems (path : String) (i : Nat) :
    List JVal → List JVal × List (String × JVal) × List String
  | [] => ([], [], [])
  | x :: rest =>
    let np := path ++ (if path.length ≠ 0 then "/" else "") ++ toString i
    if x.typeof = "function" then
      let r := pruneElems path (i + 1) rest
      (.undefined :: r.1, (np, x) :: r.2.1, np :: r.2.2)
    else if x.typeof = "object" then
      let rx := pruneFns np x
      let r := pruneElems path (i + 1) rest
      (rx.1 :: r.1, rx.2.1 ++ r.2.1, rx.2.2 ++ r.2.2)
    else
      let r := pruneElems path (i + 1) rest
      (x :: r.1, r.2.1, r.2.2)

end

/-- One step of the callback-stub splice (lines 170-181): walk the path
items through `params`, creating `{}` where an intermediate value is not
object-typed, and set the leaf to the stub for `full`.  A walk through
`null`/`undefined` throws a `TypeError`; a walk into a primitive ignores
the write, reads back `undefined` and therefore throws at the next step. -/
def spliceGo (root : JVal) : List String → String → Except JVal JVal
  | [], _ => .ok root
  | [last], full =>
    match root with
    | .null => .error typeErrVal
    | .undefined => .error typeErrVal
    | _ => .ok (setProp root last (.stub full))
  | cp :: rest, full =>
    match root with
    | .null => .error typeErrVal
    | .undefined => .error typeErrVal
    | .obj _ | .arr _ =>
      let cur := getField root cp
      let next := if cur.typeof ≠ "object" then JVal.obj [] else cur
      (spliceGo next rest full).map (fun next' => setProp root cp next')
    | _ =>
      -- primitive receiver: `obj[cp] = {}` is ignored, `obj = obj[cp]`
      -- reads undefined, and the remaining walk throws on it
      (spliceGo .undefined rest full).map (fun _ => root)

/-- Splice a stub into `params` for every declared callback path (the loop
of lines 167-182); a non-string path throws when `split` is read from it. -/
def spliceAll (params : JVal) : List JVal → Except JVal JVal
  | [] => .ok params
  | p :: rest =>
    match p with
    | .str s =>
      match spliceGo params (s.splitOn "/") s with
      | .ok params' => spliceAll params' rest
      | .error ex => .error ex
    | _ => .error typeErrVal

/-- The `__ready` notification a side emits: method scoped per the
configuration, params the given payload (lines 290, 357). -/
def readyMsg (cfg : Config) (payload : String) : JVal :=
  .obj [("method", .str (scopeMethod cfg "__ready")), ("params", .str payload)]

/-- `onReady` (lines 283-291): drain the pending queue to the transport by
popping (a last-in-first-out flush), mark ready, and unless the received
payload was `'pong'` reply with a `__ready`/`'pong'` notification — the
reply runs through `obj.notify`, whose checks its literal argument passes,
and is sent directly because the ready flag was just set. -/
def onReadyRun (cfg : Config) (st : ChannelState) (args : JVal) :
    ChannelState × List Effect :=
  let flushed := st.pendingQueue.reverse.map Effect.send
  let st := { st with pendingQueue := [], ready := true }
  match args with
  | .str s =>
    if s = "pong" then (st, flushed)
    else (st, flushed ++ [.send (readyMsg cfg "pong")])
  | _ => (st, flushed ++ [.send (readyMsg cfg "pong")])

/-- The catch block of the request dispatch (lines 186-219): normalize the
thrown value and send it through the handle's `error` operation.  A throw
from the normalization itself or from `trans.error` (for instance when the
handler already completed the transaction and the table entry is gone)
propagates out of the dispatcher — nothing catches it. -/
def catchPath (idv : JVal) (ts : TransSt) (st : ChannelState)
    (effs : List Effect) (ex : JVal) :
    Except JVal (ChannelState × List Effect) :=
  match normalizeError ex with
  | .error ex2 => .error ex2
  | .ok (err, msg) =>
    match transError idv ts st err msg with
    | (_, .ok (st, effs')) => .ok (st, effs ++ effs' ++ [.stopPropagation])
    | (_, .error ex2) => .error ex2

/-- Request dispatch (lines 158-221) once a registered handler was found:
record `{ t: 'in' }` under the request id, splice callback stubs into the
params when the request declares callbacks, invoke the handler, and unless
it set `delayReturn` or already completed, auto-complete with its return
value; any value thrown inside the `try` goes to `catchPath`. -/
def handleRequest (cfg : Config) (st : ChannelState) (m mid : JVal)
    (entry : RegEntry) : Except JVal (ChannelState × List Effect) :=
  let declared :=
    match getField m "callbacks" with
    | .undefined => JVal.arr []        -- m.callbacks ? m.callbacks : [ ]
    | .null => JVal.arr []
    | c => if truthy c then c else JVal.arr []
  let st := { st with tranTbl := insertAssoc st.tranTbl (jsStr mid) .tin }
  -- the splice only runs for a nonempty declared array (line 166)
  let spliced : Except JVal JVal :=
    match getField m "callbacks" with
    | .arr (p :: ps) => spliceAll (getField m "params") (p :: ps)
    | _ => .ok (getField m "params")
  match entry with
  | .ready =>
    -- onReady invoked as a request handler: it ignores the handle, runs its
    -- body, returns undefined, and the dispatcher auto-completes
    match spliced with
    | .error ex => catchPath mid ⟨false, false⟩ st [] ex
    | .ok _ =>
      let (st, effs) := onReadyRun cfg st (getField m "params")
      match transComplete mid ⟨false, false⟩ st .undefined with
      | (_, .ok (st, effs')) => .ok (st, effs ++ effs' ++ [.stopPropagation])
      | (ts, .error ex) => catchPath mid ts st effs ex
  | .user h =>
    match spliced with
    | .error ex => catchPath mid ⟨false, false⟩ st [] ex
    | .ok params =>
      let script := h params
      match runActs mid declared script.acts ⟨false, false⟩ st [] with
      | (ts, st, effs, some ex) => catchPath mid ts st effs ex
      | (ts, st, effs, none) =>
        match script.out with
        | .thr ex => catchPath mid ts st effs ex
        | .ret v =>
          -- if (!trans.delayReturn() && !trans.completed()) trans.complete(resp)
          if ¬ ts.delay ∧ ¬ ts.compl then
            match transComplete mid ts st v with
            | (_, .ok (st, effs')) => .ok (st, effs ++ effs' ++ [.stopPropagation])
            | (ts, .error ex) => catchPath mid ts st effs ex
          else .ok (st, effs ++ [.stopPropagation])

/-- `onMessage` (lines 127-261): validate the event origin, parse the
payload (`JSON.parse` throws on malformed text and nothing here catches
it), drop non-object payloads, descope the method name when a scope is
configured, then classify by the fields present — request, callback
invocation, response, notification — and route; unhandled events change
nothing.  A `null` payload passes the `typeof` check and then throws a
`TypeError` when `m.method` is read (line 144).  When a thrown value
propagates out of the dispatcher the model reports only the exception
(`Except.error`); transport sends that happened before the throw are not
recorded on that path. -/
def onMessage (cfg : Config) (st : ChannelState) (e : MsgEvent) :
    Except JVal (ChannelState × List Effect) :=
  if cfg.tgt_origin ≠ "*" ∧ cfg.tgt_origin ≠ e.origin then .ok (st, [])
  else
    match e.data with
    | .malformed => .error parseErrVal
    | .parsed m0 =>
      if m0.typeof ≠ "object" then .ok (st, [])
      else
        match m0 with
        | .null => .error typeErrVal
        | _ =>
          -- descoping (lines 144-155)
          let dm : Except JVal (Option JVal) :=
            if truthy (getField m0 "method") && scopeTruthy cfg then
              match getField m0 "method" with
              | .str ms =>
                let ar := ms.splitOn "::"
                if ar.length ≠ 2 then .ok none
                else if ar.headD "" ≠ (cfg.msg_scope.getD "") then .ok none
                else .ok (some (setProp m0 "method" (.str (ar.getD 1 ""))))
              | _ => .error typeErrVal    -- m.method.split on a non-string
            else .ok (some m0)
          match dm with
          | .error ex => .error ex
          | .ok none => .ok (st, [])
          | .ok (some m) =>
            let mid := getField m "id"
            let mmethod := getField m "method"
            if truthy mid && truthy mmethod then
              -- a request (lines 158-221)
              match st.regTbl.lookup (jsStr mmethod) with
              | none => .ok (st, [])
              | some entry => handleRequest cfg st m mid entry
            else if truthy mid && truthy (getField m "callback") then
              -- a callback invocation (lines 222-231)
              match st.tranTbl.lookup (jsStr mid) with
              | some (.tout cbs _ _) =>
                -- the callbacks object of an outbound entry is always truthy
                match cbs.lookup (jsStr (getField m "callback")) with
                | some f =>
                  if truthy f then
                    .ok (st, [.call f [getField m "params"], .stopPropagation])
                  else .ok (st, [])
                | none => .ok (st, [])
              | _ => .ok (st, [])
            else if truthy mid &&
                (truthy (getField m "result") || truthy (getField m "error")) then
              -- a response (lines 232-241)
              match st.tranTbl.lookup (jsStr mid) with
              | some (.tout _ errF succF) =>
                if truthy (getField m "result") then
                  let st := { st with tranTbl := removeAssoc st.tranTbl (jsStr mid) }
                  .ok (st, [.call succF [getField m "result"], .stopPropagation])
                else if errF.typeof ≠ "function" then
                  -- invoking an absent error continuation throws
                  .error typeErrVal
                else
                  let st := { st with tranTbl := removeAssoc st.tranTbl (jsStr mid) }
                  .ok (st,
                    [.call errF [getField m "error", getField m "message"],
                     .stopPropagation])
              | _ => .ok (st, [])
            else if truthy mmethod then
              -- a notification (lines 242-251)
              match st.regTbl.lookup (jsStr mmethod) with
              | none => .ok (st, [])
              | some .ready =>
                let (st, effs) := onReadyRun cfg st (getField m "params")
                .ok (st, effs ++ [.stopPropagation])
              | some (.user h) =>
                -- the handler runs with a null transaction handle; its return
                -- value is ignored and anything it throws bubbles out
                let script := h (getField m "params")
                match script.acts with
                | _ :: _ => .error typeErrVal    -- a handle operation on null
                | [] =>
                  match script.out with
                  | .thr ex => .error ex
                  | .ret _ => .ok (st, [.stopPropagation])
            else .ok (st, [])

/-- `obj.unbind` (line 303): the body of the source function is empty —
nothing is removed and no error is raised. -/
def unbind (st : ChannelState) (_method : JVal) : ChannelState := st

/-- `obj.bind` (lines 304-310): reject a non-string or empty method name
and a rebinding of a bound name, otherwise record the handler.  The
source also rejects a non-function `cb`; a `RegEntry` is invocable by
construction. -/
def bind (st : ChannelState) (method : JVal) (cb : RegEntry) :
    Except JVal ChannelState :=
  if ¬ (truthy method && method.typeof == "string") then
    .error (.str "'method' argument to bind must be string")
  else if (st.regTbl.lookup (jsStr method)).isSome then
    .error (.str ("method '" ++ jsStr method ++ "' is already bound!"))
  else .ok { st with regTbl := st.regTbl ++ [(jsStr method, cb)] }

/-- `obj.query` (lines 311-346): validate the arguments, prune invocables
out of `params` (recording them as callbacks), post the request with the
current transaction id, record the outbound transaction entry, and advance
the id by 2. -/
def query (cfg : Config) (st : ChannelState) (m : JVal) :
    Except JVal (ChannelState × List Effect) :=
  if ¬ truthy m then .error (.str "missing arguments to query function")
  else if ¬ (truthy (getField m "method") &&
      (getField m "method").typeof == "string") then
    .error (.str "'method' argument to query must be string")
  else if ¬ (truthy (getField m "success") &&
      (getField m "success").typeof == "function") then
    .error (.str "'success' callback missing from query")
  else
    let pr := pruneFns "" (getField m "params")
    let req : JVal := .obj
      [("id", .num st.curTranId),
       ("method", .str (scopeMethod cfg (jsStr (getField m "method")))),
       ("params", pr.1),
       ("callbacks", .arr (pr.2.2.map JVal.str))]
    match postMessage st req with
    | .error ex => .error ex
    | .ok (st, effs) =>
      let st := { st with
        tranTbl := insertAssoc st.tranTbl (jsStr (JVal.num st.curTranId))
          (.tout pr.2.1 (getField m "error") (getField m "success")) }
      .ok ({ st with curTranId := st.curTranId + 2 }, effs)

/-- `obj.notify` (lines 347-353): validate the method, then post a
notification; the transaction table is untouched. -/
def notify (cfg : Config) (st : ChannelState) (m : JVal) :
    Except JVal (ChannelState × List Effect) :=
  if ¬ truthy m then .error (.str "missing arguments to notify function")
  else if ¬ (truthy (getField m "method") &&
      (getField m "method").typeof == "string") then
    .error (.str "'method' argument to notify must be string")
  else
    postMessage st
      (.obj [("method", .str (scopeMethod cfg (jsStr (getField m "method")))),
             ("params", getField m "params")])

/-- `Channel.build` (lines 20-359) as a state initializer.  The browser and
argument validation of lines 29-49 only throws on invalid input and is
outside the modelled state; a valid `Config` is assumed.  Lines 51-75 set
the private variables (a child — a channel whose target window is its own
parent — gets an odd first transaction id and a temporarily true ready
flag); line 356 binds `__ready` to `onReady`; line 357 sets `ready = true`,
notifies `__ready`/`'ping'` (sent directly because of that flag), and then
sets `ready = false` — for the child as well, overwriting line 70. -/
def build (cfg : Config) : ChannelState × List Effect :=
  let st : ChannelState :=
    { regTbl := []
      tranTbl := []
      curTranId := if cfg.isChild then 1000 + 1 else 1000
      ready := cfg.isChild
      pendingQueue := [] }
  -- obj.bind('__ready', onReady): regTbl is empty, the bind succeeds
  let st := { st with regTbl := [("__ready", RegEntry.ready)] }
  let st := { st with ready := true }
  match notify cfg st (.obj [("method", .str "__ready"), ("params", .str "ping")]) with
  | .ok (st, effs) => ({ st with ready := false }, effs)
  | .error _ => ({ st with ready := false }, [])   -- unreachable: the literal passes

/-! Concrete channels, handlers and events shared by the claim theorems. -/

/-- A scope-free wildcard-origin configuration for the parent side. -/
def cfgParent : Config := ⟨"*", none, false⟩

/-- The same configuration for the child side (target window is the
context's parent). -/
def cfgChild : Config := ⟨"*", none, true⟩

/-- A registry entry for a handler that returns its params unchanged. -/
def echoEntry : RegEntry := .user (fun p => ⟨[], .ret p⟩)

/-- A request event: `{ id, method, params }` from a matching origin. -/
def reqEvent (idn : Int) (name : String) (params : JVal) : MsgEvent :=
  ⟨"o", .parsed (.obj [("id", .num idn), ("method", .str name), ("params", params)])⟩

/-- A `__ready` notification event with the given payload. -/
def readyEvent (payload : JVal) : MsgEvent :=
  ⟨"o", .parsed (.obj [("method", .str "__ready"), ("params", payload)])⟩

/-- A response event: `{ id, result }`. -/
def respEvent (idv v : JVal) : MsgEvent :=
  ⟨"o", .parsed (.obj [("id", idv), ("result", v)])⟩

mutual

/-- No invocable value (`typeof === 'function'`) remains at any nested
position of a structure: the postcondition of the outbound callback
marshaler on the pruned params. -/
def deepNoFn : JVal → Bool
  | .obj fs => deepNoFnFields fs
  | .arr xs => deepNoFnElems xs
  | _ => true

/-- `deepNoFn` over an object's fields. -/
def deepNoFnFields : List (String × JVal) → Bool
  | [] => true
  | (_, x) :: rest => (x.typeof != "function") && deepNoFn x && deepNoFnFields rest

/-- `deepNoFn` over an array's elements. -/
def deepNoFnElems : List JVal → Bool
  | [] => true
  | x :: rest => (x.typeof != "function") && deepNoFn x && deepNoFnElems rest

end

/-- An empty channel that has completed its handshake (ready, no
registrations, no open transactions). -/
def stEmpty : ChannelState :=
  { regTbl := [], tranTbl := [], curTranId := 1000, ready := true,
    pendingQueue := [] }

/-- The parent side right after construction. -/
def stA0 : ChannelState := (build cfgParent).1

/-- The parent side after receiving the peer's `__ready`/`'ping'`. -/
def stA1 : ChannelState :=
  match onMessage cfgParent stA0 (readyEvent (.str "ping")) with
  | .ok r => r.1
  | .error _ => stA0

/-- The argument of `query({method: "echo", params: "hi", success})`, the
success continuation being the local function value tagged 1. -/
def queryEchoArg : JVal :=
  .obj [("method", .str "echo"), ("params", .str "hi"), ("success", .fn 1)]

/-- The parent side after issuing the echo query. -/
def stA2 : ChannelState :=
  match query cfgParent stA1 queryEchoArg with
  | .ok r => r.1
  | .error _ => stA1

/-- The request message that query emits for `queryEchoArg`. -/
def echoReqMsg : JVal :=
  .obj [("id", .num 1000), ("method", .str "echo"), ("params", .str "hi"),
        ("callbacks", .arr [])]

/-- The child side right after construction. -/
def stB0 : ChannelState := (build cfgChild).1

/-- The child side after binding `"echo"` to the echo handler. -/
def stB1 : ChannelState :=
  match bind stB0 (.str "echo") echoEntry with
  | .ok s => s
  | .error _ => stB0

/-- The child side after receiving the peer's `__ready`/`'ping'`. -/
def stB2 : ChannelState :=
  match onMessage cfgChild stB1 (readyEvent (.str "ping")) with
  | .ok r => r.1
  | .error _ => stB1

/-- The response the echo dispatch sends back. -/
def echoRespMsg : JVal := .obj [("id", .num 1000), ("result", .str "hi")]

/-- A handler that completes its own transaction through the handle and
then throws. -/
def completeThenThrowEntry : RegEntry :=
  .user (fun _ => ⟨[.complete (.str "done")], .thr (.str "late")⟩)

/-- A ready channel with `"m"` bound to `completeThenThrowEntry`. -/
def stCompThrow : ChannelState :=
  { regTbl := [("m", completeThenThrowEntry)], tranTbl := [],
    curTranId := 1000, ready := true, pendingQueue := [] }

/-- A handler that throws a structured value with string `error` and
`message` fields. -/
def throwObjEntry : RegEntry :=
  .user (fun _ =>
    ⟨[], .thr (.obj [("error", .str "custom_code"), ("message", .str "oops")])⟩)

/-- A ready channel with `"m"` bound to `throwObjEntry`. -/
def stThrowObj : ChannelState :=
  { regTbl := [("m", throwObjEntry)], tranTbl := [],
    curTranId := 1000, ready := true, pendingQueue := [] }

/-- `stEmpty` after a successful `bind("m", echoEntry)`. -/
def stBoundM : ChannelState :=
  match bind stEmpty (.str "m") echoEntry with
  | .ok s => s
  | .error _ => stEmpty

/-- A params structure holding an invocable inside an array:
`{ a: [fn] }`. -/
def arrFnParams : JVal := .obj [("a", .arr [.fn 7])]

/-- A ready channel whose pending queue holds two messages (as if two
queries had been issued before readiness). -/
def stQueued : ChannelState :=
  { regTbl := [("__ready", RegEntry.ready)], tranTbl := [],
    curTranId := 1004, ready := false,
    pendingQueue := [.str "q1", .str "q2"] }

/-- A ready channel with one open inbound transaction under key `"9"`. -/
def stTran9 : ChannelState :=
  { regTbl := [], tranTbl := [("9", .tin)], curTranId := 1000, ready := true,
    pendingQueue := [] }

/-- A handler that throws the string `"boom"`. -/
def throwStrEntry : RegEntry := .user (fun _ => ⟨[], .thr (.str "boom")⟩)

/-- A ready channel with `"m"` bound to `throwStrEntry`. -/
def stThrowStr : ChannelState :=
  { regTbl := [("m", throwStrEntry)], tranTbl := [], curTranId := 1000,
    ready := true, pendingQueue := [] }

/-- The request message `query` emits for `queryEchoArg` on a child channel
(first id 1001). -/
def childEchoReqMsg : JVal :=
  .obj [("id", .num 1001), ("method", .str "echo"), ("params", .str "hi"),
        ("callbacks", .arr [])]

/-- Specification of the outbound callback marshaler on one value: the
recorded path list matches the recorded callbacks in order, every recorded
callback is invocable, and the pruned result retains no invocable at any
nested position (inside objects or arrays). -/
def PruneSpec (path : String) (v : JVal) : Prop :=
  (pruneFns path v).2.2 = (pruneFns path v).2.1.map Prod.fst
  ∧ (∀ p f, (p, f) ∈ (pruneFns path v).2.1 → f.typeof = "function")
  ∧ deepNoFn (pruneFns path v).1 = true

/-! Helper lemmas. -/

theorem truthy_undefinedVal : truthy .undefined = false := rfl

theorem lookup_removeAssoc_self {α : Type} (l : List (String × α)) (k : String) :
    (removeAssoc l k).lookup k = none := by
  induction l with
  | nil => rfl
  | cons p rest ih =>
    obtain ⟨k', v'⟩ := p
    by_cases h : k' = k
    · simpa [removeAssoc, List.filter_cons, h] using ih
    · have hne : (k == k') = false := beq_eq_false_iff_ne.mpr (Ne.symm h)
      have hne' : (k' != k) = true := by simp [bne, h]
      simp only [removeAssoc, List.filter_cons, hne', if_true]
      simp only [List.lookup, hne]
      exact ih

theorem pruneFns_typeof_object (x : JVal) (p : String)
    (hx : x.typeof = "object") : (pruneFns p x).1.typeof = "object" := by
  match x with
  | .obj fs => simp [pruneFns, JVal.typeof]
  | .arr xs => simp [pruneFns, JVal.typeof]
  | .null => simp [pruneFns, JVal.typeof]
  | .undefined | .bool _ | .num _ | .str _ | .fn _ | .stub _ => simp [JVal.typeof] at hx

theorem deepNoFn_scalar (x : JVal) (hf : x.typeof ≠ "function")
    (ho : x.typeof ≠ "object") : deepNoFn x = true := by
  match x with
  | .undefined | .bool _ | .num _ | .str _ => rfl
  | .null | .obj _ | .arr _ => simp [JVal.typeof] at ho
  | .fn _ | .stub _ => simp [JVal.typeof] at hf

theorem pruneFields_spec (fs : List (String × JVal)) (path : String)
    (ih : ∀ k x, (k, x) ∈ fs → ∀ p', PruneSpec p' x) :
    (pruneFields path fs).2.2 = (pruneFields path fs).2.1.map Prod.fst
    ∧ (∀ p f, (p, f) ∈ (pruneFields path fs).2.1 → f.typeof = "function")
    ∧ deepNoFnFields (pruneFields path fs).1 = true := by
  induction fs with
  | nil => simp [pruneFields, deepNoFnFields]
  | cons kx rest ihr =>
    obtain ⟨k, x⟩ := kx
    have ihx := ih k x (List.mem_cons_self _ _)
    have ihrest := ihr (fun k' x' hm p' => ih k' x' (List.mem_cons_of_mem _ hm) p')
    by_cases hf : x.typeof = "function"
    · simp only [pruneFields, hf, if_true]
      refine ⟨?_, ?_, ?_⟩
      · simp [ihrest.1]
      · intro p f hm
        rcases List.mem_cons.mp hm with hh | ht
        · cases hh; exact hf
        · exact ihrest.2.1 p f ht
      · exact ihrest.2.2
    · by_cases ho : x.typeof = "object"
      · simp only [pruneFields, hf, ho, if_true, if_false]
        refine ⟨?_, ?_, ?_⟩
        · simp [(ihx _).1, ihrest.1]
        · intro p f hm
          rcases List.mem_append.mp hm with hh | ht
          · exact (ihx _).2.1 p f hh
          · exact ihrest.2.1 p f ht
        · simp [deepNoFnFields, pruneFns_typeof_object x _ ho, (ihx _).2.2,
            ihrest.2.2, bne]
      · simp only [pruneFields, hf, ho, if_false]
        refine ⟨ihrest.1, ihrest.2.1, ?_⟩
        simp [deepNoFnFields, hf, deepNoFn_scalar x hf ho, ihrest.2.2, bne]

theorem pruneElems_spec (xs : List JVal) (path : String) (i : Nat)
    (ih : ∀ x, x ∈ xs → ∀ p', PruneSpec p' x) :
    (pruneElems path i xs).2.2 = (pruneElems path i xs).2.1.map Prod.fst
    ∧ (∀ p f, (p, f) ∈ (pruneElems path i xs).2.1 → f.typeof = "function")
    ∧ deepNoFnElems (pruneElems path i xs).1 = true := by
  induction xs generalizing i with
  | nil => simp [pruneElems, deepNoFnElems]
  | cons x rest ihr =>
    have ihx := ih x (List.mem_cons_self _ _)
    have ihrest := ihr (i + 1) (fun x' hm p' => ih x' (List.mem_cons_of_mem _ hm) p')
    by_cases hf : x.typeof = "function"
    · simp only [pruneElems, hf, if_true]
      refine ⟨?_, ?_, ?_⟩
      · simp [ihrest.1]
      · intro p f hm
        rcases List.mem_cons.mp hm with hh | ht
        · cases hh; exact hf
        · exact ihrest.2.1 p f ht
      · simp [deepNoFnElems, deepNoFn, JVal.typeof, ihrest.2.2]
    · by_cases ho : x.typeof = "object"
      · simp only [pruneElems, hf, ho, if_true, if_false]
        refine ⟨?_, ?_, ?_⟩
        · simp [(ihx _).1, ihrest.1]
        · intro p f hm
          rcases List.mem_append.mp hm with hh | ht
          · exact (ihx _).2.1 p f hh
          · exact ihrest.2.1 p f ht
        · simp [deepNoFnElems, pruneFns_typeof_object x _ ho, (ihx _).2.2,
            ihrest.2.2, bne]
      · simp only [pruneElems, hf, ho, if_false]
        refine ⟨ihrest.1, ihrest.2.1, ?_⟩
        simp [deepNoFnElems, hf, deepNoFn_scalar x hf ho, ihrest.2.2, bne]

theorem pruneFns_spec : ∀ (v : JVal) (path : String), PruneSpec path v := by
  have key : ∀ n, ∀ v : JVal, sizeOf v = n → ∀ path, PruneSpec path v := by
    intro n
    induction n using Nat.strong_induction_on with
    | _ n ihn =>
      intro v hv path
      match v with
      | .obj fs =>
        have hfields := pruneFields_spec fs path (fun k x hm p' => by
          have hs1 : sizeOf (k, x) < sizeOf fs := List.sizeOf_lt_of_mem hm
          have hs2 : sizeOf (JVal.obj fs) = 1 + sizeOf fs := by simp
          have hs3 : sizeOf (k, x) = 1 + sizeOf k + sizeOf x := by simp
          have hlt : sizeOf x < n := by omega
          exact ihn (sizeOf x) hlt x rfl p')
        unfold PruneSpec
        simpa [pruneFns, deepNoFn] using hfields
      | .arr xs =>
        have helems := pruneElems_spec xs path 0 (fun x hm p' => by
          have hs1 : sizeOf x < sizeOf xs := List.sizeOf_lt_of_mem hm
          have hs2 : sizeOf (JVal.arr xs) = 1 + sizeOf xs := by simp
          have hlt : sizeOf x < n := by omega
          exact ihn (sizeOf x) hlt x rfl p')
        unfold PruneSpec
        simpa [pruneFns, deepNoFn] using helems
      | .null | .undefined | .bool _ | .num _ | .str _ | .fn _ | .stub _ =>
        unfold PruneSpec
        simp [pruneFns, deepNoFn]
  intro v path
  exact key (sizeOf v) v rfl path

/-! Claim theorems. -/

/-- C1: a request dispatched to a registered handler whose invocation
performs handle operations without throwing, leaves `delayReturn` unset and
the transaction uncompleted, and returns `v`, is auto-completed by the
dispatcher: the transaction is removed and a Response `{ id, result: v }`
is sent.  The second conjunct is the echo round trip: `query({method:
"echo", params: "hi", success})` emits the request, the bound echo handler
answers it with `{ id, result: "hi" }`, and dispatching that response on
the querying side invokes the success continuation with `"hi"`. -/
theorem c1_request_auto_complete :
  (∀ (h : JVal → HandlerScript) (name : String) (params v : JVal) (idn : Int)
    (st st' : ChannelState) (effs : List Effect),
    st.regTbl.lookup name = some (.user h) →
    name ≠ "" →
    idn ≠ 0 →
    runActs (.num idn) (.arr []) (h params).acts ⟨false, false⟩
        { st with tranTbl := insertAssoc st.tranTbl (toString idn) .tin } []
      = (⟨false, false⟩, st', effs, none) →
    (h params).out = .ret v →
    st'.tranTbl.lookup (toString idn) = some .tin →
    st'.ready = true →
    onMessage cfgParent st (reqEvent idn name params) =
      .ok ({ st' with tranTbl := removeAssoc st'.tranTbl (toString idn) },
           effs ++ [.send (.obj [("id", .num idn), ("result", v)]),
             .stopPropagation]))
  ∧ (query cfgParent stA1 queryEchoArg = .ok (stA2, [.send echoReqMsg])
    ∧ (∃ st', onMessage cfgChild stB2 ⟨"o", .parsed echoReqMsg⟩ =
        .ok (st', [.send echoRespMsg, .stopPropagation]))
    ∧ (∃ st', onMessage cfgParent stA2 ⟨"o", .parsed echoRespMsg⟩ =
        .ok (st', [.call (.fn 1) [.str "hi"], .stopPropagation]))) := by
  constructor
  · intro h name params v idn st st' effs hreg hname hid hrun hout hlive hready
    have htid : truthy (.num idn) = true := by simp [truthy, hid]
    have htname : truthy (.str name) = true := by simp [truthy, hname]
    simp +decide [onMessage, reqEvent, cfgParent, scopeTruthy, getField,
      List.lookup, JVal.typeof, truthy_undefinedVal, htid, htname, jsStr, hreg,
      handleRequest, hrun, hout, transComplete, hlive, postMessage, hready,
      truthy]
    intro hcontra
    exact absurd (hcontra hid) hname
  · exact ⟨rfl, ⟨_, rfl⟩, ⟨_, rfl⟩⟩

/-- Witness for C1: the general statement applied to a concrete echo
handler, request id 42 and params `"ping!"` on a ready channel. -/
theorem c1_request_auto_complete_w :
    onMessage cfgParent
      { regTbl := [("echo", echoEntry)], tranTbl := [], curTranId := 1000,
        ready := true, pendingQueue := [] }
      (reqEvent 42 "echo" (.str "ping!")) =
    .ok ({ regTbl := [("echo", echoEntry)],
           tranTbl := removeAssoc [("42", TranEntry.tin)] "42",
           curTranId := 1000, ready := true, pendingQueue := [] },
         [] ++ [.send (.obj [("id", .num 42), ("result", .str "ping!")]),
           .stopPropagation]) :=
  c1_request_auto_complete.1 (fun p => ⟨[], .ret p⟩) "echo" (.str "ping!")
    (.str "ping!") 42
    { regTbl := [("echo", echoEntry)], tranTbl := [], curTranId := 1000,
      ready := true, pendingQueue := [] }
    { regTbl := [("echo", echoEntry)], tranTbl := [("42", TranEntry.tin)],
      curTranId := 1000, ready := true, pendingQueue := [] }
    [] rfl (by decide) (by decide) rfl rfl rfl rfl

/-- C2: on a live inbound transaction, the first terminal call (`complete`
or `error`) marks the handle completed and yields the state with the
transaction already removed from the table together with the single
outbound Response send (the removal happens in `transComplete`/`transError`
before `postMessage` runs, so the posted state is the removed one); on the
resulting state any second terminal call — complete twice, or complete then
error, in either order — throws the source's unknown-transaction error
instead of sending a second Response. -/
theorem c2_terminal_once :
  ∀ (st : ChannelState) (idv v w e msg e2 msg2 : JVal) (ts ts2 : TransSt),
    st.tranTbl.lookup (jsStr idv) = some .tin →
    st.ready = true →
    ((transComplete idv ts st v).1.compl = true
      ∧ (transComplete idv ts st v).2 =
          .ok ({ st with tranTbl := removeAssoc st.tranTbl (jsStr idv) },
               [.send (.obj [("id", idv), ("result", v)])])
      ∧ ((removeAssoc st.tranTbl (jsStr idv)).lookup (jsStr idv) = none)
      ∧ (transComplete idv ts2
            { st with tranTbl := removeAssoc st.tranTbl (jsStr idv) } w).2 =
          .error (.str ("complete called for non-existant message: " ++ jsStr idv))
      ∧ (transError idv ts2
            { st with tranTbl := removeAssoc st.tranTbl (jsStr idv) } e2 msg2).2 =
          .error (.str ("error called for non-existant message: " ++ jsStr idv)))
    ∧ ((transError idv ts st e msg).1.compl = true
      ∧ (transError idv ts st e msg).2 =
          .ok ({ st with tranTbl := removeAssoc st.tranTbl (jsStr idv) },
               [.send (.obj [("id", idv), ("error", e), ("message", msg)])])
      ∧ (transError idv ts2
            { st with tranTbl := removeAssoc st.tranTbl (jsStr idv) } e2 msg2).2 =
          .error (.str ("error called for non-existant message: " ++ jsStr idv))
      ∧ (transComplete idv ts2
            { st with tranTbl := removeAssoc st.tranTbl (jsStr idv) } w).2 =
          .error (.str ("complete called for non-existant message: " ++ jsStr idv))) := by
  intro st idv v w e msg e2 msg2 ts ts2 h hready
  have hrem := lookup_removeAssoc_self st.tranTbl (jsStr idv)
  simp [transComplete, transError, h, hrem, postMessage, hready, truthy]

/-- Witness for C2: the transaction table holding `"9"` inbound, completing
with `"v"` succeeds, and a second `complete` on the result throws. -/
theorem c2_terminal_once_w :
    (transComplete (.num 9) ⟨false, false⟩ stTran9 (.str "v")).2 =
      .ok ({ stTran9 with tranTbl := removeAssoc stTran9.tranTbl "9" },
           [.send (.obj [("id", .num 9), ("result", .str "v")])])
    ∧ (transComplete (.num 9) ⟨true, true⟩
          { stTran9 with tranTbl := removeAssoc stTran9.tranTbl "9" }
          (.str "w")).2 =
        .error (.str "complete called for non-existant message: 9") :=
  ⟨(c2_terminal_once stTran9 (.num 9) (.str "v") (.str "w") .null .null .null
      .null ⟨false, false⟩ ⟨true, true⟩ rfl rfl).1.2.1,
   (c2_terminal_once stTran9 (.num 9) (.str "v") (.str "w") .null .null .null
      .null ⟨false, false⟩ ⟨true, true⟩ rfl rfl).1.2.2.2.1⟩

/-- C3 (code bug): a handler throws `{error: "custom_code", message:
"oops"}`.  The normalization takes the `error` field as the code, but the
misspelled assignment `messasge = e.message` at line 204 leaves the local
`message` null, so lines 210-216 re-derive it by serializing the whole
thrown value: the Response carries `message =
"\x7b\"error\":\"custom_code\",\"message\":\"oops\"\x7d"` instead of
`"oops"`, contradicting the spec's "message = its message field if a
string". -/
theorem c3_structured_throw_message_bug :
    normalizeError (.obj [("error", .str "custom_code"), ("message", .str "oops")])
      = .ok (.str "custom_code",
             .str "\x7b\"error\":\"custom_code\",\"message\":\"oops\"\x7d")
    ∧ (∃ st', onMessage cfgParent stThrowObj (reqEvent 7 "m" (.str "x")) =
        .ok (st',
          [.send (.obj [("id", .num 7), ("error", .str "custom_code"),
            ("message",
             .str "\x7b\"error\":\"custom_code\",\"message\":\"oops\"\x7d")]),
           .stopPropagation])) :=
  ⟨rfl, _, rfl⟩

/-- C4 counterexample: a handler that completes its own transaction through
the handle and then throws.  The catch block normalizes the throw and calls
`trans.error`, but the transaction is already removed, so `trans.error`
itself throws and the value propagates out of `onMessage` — contradicting
"no such thrown value ever propagates out of the dispatcher". -/
theorem c4_complete_then_throw_escapes :
    onMessage cfgParent stCompThrow (reqEvent 5 "m" .null) =
      .error (.str "error called for non-existant message: 5") := rfl

/-- C4 as amended: a value `e` thrown by a handler whose handle operations
ran without throwing and left the transaction alive in the table is caught,
normalized to `(err, msg)` (which succeeds whenever the thrown value is not
`null`), and delivered to the remote caller as the error Response
`{ id, error: err, message: msg }`; the dispatcher returns normally. -/
theorem c4_handler_fault_delivered :
  ∀ (h : JVal → HandlerScript) (name : String) (params e err msg : JVal)
    (idn : Int) (st st' : ChannelState) (effs : List Effect) (ts : TransSt),
    st.regTbl.lookup name = some (.user h) →
    name ≠ "" →
    idn ≠ 0 →
    runActs (.num idn) (.arr []) (h params).acts ⟨false, false⟩
        { st with tranTbl := insertAssoc st.tranTbl (toString idn) .tin } []
      = (ts, st', effs, none) →
    (h params).out = .thr e →
    normalizeError e = .ok (err, msg) →
    st'.tranTbl.lookup (toString idn) = some .tin →
    st'.ready = true →
    onMessage cfgParent st (reqEvent idn name params) =
      .ok ({ st' with tranTbl := removeAssoc st'.tranTbl (toString idn) },
           effs ++ [.send (.obj [("id", .num idn), ("error", err),
             ("message", msg)]), .stopPropagation]) := by
  intro h name params e err msg idn st st' effs ts hreg hname hid hrun hout hnorm hlive hready
  have htid : truthy (.num idn) = true := by simp [truthy, hid]
  have htname : truthy (.str name) = true := by simp [truthy, hname]
  simp +decide [onMessage, reqEvent, cfgParent, scopeTruthy, getField,
    List.lookup, JVal.typeof, truthy_undefinedVal, htid, htname, jsStr, hreg,
    handleRequest, hrun, hout, catchPath, hnorm, transError, hlive,
    postMessage, hready, truthy]
  intro hcontra
  exact absurd (hcontra hid) hname

/-- Witness for C4: a handler throwing the string `"boom"` on a ready
channel; the caller receives `("runtime_error", "boom")`. -/
theorem c4_handler_fault_delivered_w :
    onMessage cfgParent stThrowStr (reqEvent 8 "m" (.str "x")) =
    .ok ({ regTbl := [("m", throwStrEntry)],
           tranTbl := removeAssoc [("8", TranEntry.tin)] "8",
           curTranId := 1000, ready := true, pendingQueue := [] },
         [] ++ [.send (.obj [("id", .num 8), ("error", .str "runtime_error"),
           ("message", .str "boom")]), .stopPropagation]) :=
  c4_handler_fault_delivered (fun _ => ⟨[], .thr (.str "boom")⟩) "m"
    (.str "x") (.str "boom") (.str "runtime_error") (.str "boom") 8
    stThrowStr
    { regTbl := [("m", throwStrEntry)], tranTbl := [("8", TranEntry.tin)],
      curTranId := 1000, ready := true, pendingQueue := [] }
    [] ⟨false, false⟩ rfl (by decide) (by decide) rfl rfl rfl rfl rfl

/-- C5: dispatching a `__ready` notification on a side whose registry holds
the internal handler sends every queued message to the transport in
reverse-of-enqueue (last-in-first-out) order, leaves the queue empty, marks
the side ready, and appends a `__ready`/`"pong"` notification exactly when
the received payload was not `"pong"`; every message queued before
readiness appears among the flushed sends. -/
theorem c5_ready_flush :
  ∀ (st : ChannelState) (args : JVal),
    st.regTbl.lookup "__ready" = some .ready →
    ((args = .str "pong" →
      onMessage cfgParent st (readyEvent args) =
        .ok ({ st with pendingQueue := [], ready := true },
          (st.pendingQueue.reverse.map Effect.send) ++ [.stopPropagation]))
    ∧ (args ≠ .str "pong" →
      onMessage cfgParent st (readyEvent args) =
        .ok ({ st with pendingQueue := [], ready := true },
          (st.pendingQueue.reverse.map Effect.send) ++
            [.send (readyMsg cfgParent "pong"), .stopPropagation]))
    ∧ (∀ q ∈ st.pendingQueue,
        Effect.send q ∈ st.pendingQueue.reverse.map Effect.send)) := by
  intro st args hreg
  refine ⟨?_, ?_, ?_⟩
  · rintro rfl
    simp +decide [onMessage, readyEvent, cfgParent, scopeTruthy, getField,
      List.lookup, JVal.typeof, truthy_undefinedVal, truthy, jsStr, hreg, onReadyRun]
  · intro hne
    have hrun : onReadyRun cfgParent st args =
        ({ st with pendingQueue := [], ready := true },
          (st.pendingQueue.reverse.map Effect.send) ++
            [.send (readyMsg cfgParent "pong")]) := by
      match args with
      | .str s =>
        have : s ≠ "pong" := by rintro rfl; exact hne rfl
        simp [onReadyRun, this]
      | .null | .undefined | .bool _ | .num _ | .arr _ | .obj _ | .fn _ | .stub _ =>
        simp [onReadyRun]
    simp only [cfgParent] at hrun
    simp +decide [onMessage, readyEvent, cfgParent, scopeTruthy, getField,
      List.lookup, JVal.typeof, truthy_undefinedVal, truthy, jsStr, hreg, hrun]
  · intro q hq
    exact List.mem_map_of_mem _ (List.mem_reverse.mpr hq)

/-- Witness for C5: a queue holding `"q1"` then `"q2"` and a `"ping"`
payload: the flush sends `"q2"` first, then `"q1"`, then the pong reply. -/
theorem c5_ready_flush_w :
    onMessage cfgParent stQueued (readyEvent (.str "ping")) =
      .ok ({ stQueued with pendingQueue := [], ready := true },
        [.send (.str "q2"), .send (.str "q1"),
         .send (readyMsg cfgParent "pong"), .stopPropagation]) :=
  (c5_ready_flush stQueued (.str "ping") rfl).2.1 (by simp)

/-- C6 counterexample: an event whose payload is not well-formed makes
`JSON.parse` throw, and `onMessage` has no handler for it: the exception
propagates out of the dispatcher instead of the event being dropped. -/
theorem c6_malformed_payload_throws :
    onMessage cfgParent stEmpty ⟨"o", .malformed⟩ = .error parseErrVal := rfl

/-- C6 as amended: an event whose payload deserializes to a value that is
not object-typed is dropped with no state change and no effect; a payload
deserializing to `null`, however, passes the `typeof` check and throws a
`TypeError` when its `method` field is read (and a malformed payload throws
out of the dispatcher, per the counterexample). -/
theorem c6_nonobject_payload_dropped :
  (∀ (st : ChannelState) (v : JVal), v.typeof ≠ "object" →
      onMessage cfgParent st ⟨"o", .parsed v⟩ = .ok (st, []))
  ∧ (∀ st : ChannelState,
      onMessage cfgParent st ⟨"o", .parsed .null⟩ = .error typeErrVal) := by
  constructor
  · intro st v hv
    simp +decide [onMessage, cfgParent, hv]
  · intro st
    rfl

/-- Witness for C6: the payload `5` (a number) is dropped on the empty
channel. -/
theorem c6_nonobject_payload_dropped_w :
    onMessage cfgParent stEmpty ⟨"o", .parsed (.num 5)⟩ = .ok (stEmpty, []) :=
  c6_nonobject_payload_dropped.1 stEmpty (.num 5) (by decide)

/-- C7 counterexample: an invocable stored inside an array IS extracted and
added to the callbacks list, because `typeof` of an array is `"object"` and
the walk of lines 330-332 recurses into it: pruning `{a: [fn]}` records the
function under path `"a/0"` and deletes it from the array (leaving a hole),
contradicting "an invocable stored inside an array is neither extracted nor
added". -/
theorem c7_array_fn_extracted :
    pruneFns "" arrFnParams =
      (.obj [("a", .arr [.undefined])], [("a/0", .fn 7)], ["a/0"])
    ∧ (pruneFns "" arrFnParams).2.2 ≠ [] :=
  ⟨rfl, by decide⟩

/-- C7 as amended: the outbound marshaler extracts the invocable values
reachable by recursing through nested key-value containers AND arrays
(`typeof` of an array is `"object"`), recording each under its slash-joined
key path — the recorded path list matches the recorded callbacks pairwise
and in order, every recorded value is invocable, and the pruned params
retain no invocable at any nested position of an object or array. -/
theorem c7_prune_recurses_into_arrays :
  ∀ (path : String) (v : JVal),
    (pruneFns path v).2.2 = (pruneFns path v).2.1.map Prod.fst
    ∧ (∀ p f, (p, f) ∈ (pruneFns path v).2.1 → f.typeof = "function")
    ∧ deepNoFn (pruneFns path v).1 = true :=
  fun path v => pruneFns_spec v path

/-- Witness for C7: the amended statement applied to `{a: [fn]}`. -/
theorem c7_prune_recurses_into_arrays_w :
    (pruneFns "" arrFnParams).2.2 = (pruneFns "" arrFnParams).2.1.map Prod.fst
    ∧ deepNoFn (pruneFns "" arrFnParams).1 = true :=
  ⟨(c7_prune_recurses_into_arrays "" arrFnParams).1,
   (c7_prune_recurses_into_arrays "" arrFnParams).2.2⟩

/-- C8 (code bug): `unbind` has an empty body (line 303), so it removes
nothing: after `bind("m", handler)`, `unbind("m")` leaves the state
unchanged, a second `bind("m", …)` still throws AlreadyBound, and an
inbound request for `"m"` still reaches the old handler (here the echo
handler, which answers with its params). -/
theorem c8_unbind_noop :
    unbind stBoundM (.str "m") = stBoundM
    ∧ bind (unbind stBoundM (.str "m")) (.str "m") throwObjEntry =
        .error (.str "method 'm' is already bound!")
    ∧ (∃ st', onMessage cfgParent (unbind stBoundM (.str "m"))
        (reqEvent 3 "m" (.str "x")) =
        .ok (st', [.send (.obj [("id", .num 3), ("result", .str "x")]),
          .stopPropagation])) :=
  ⟨rfl, rfl, _, rfl⟩

/-- C9 counterexample: immediately after `Channel.build` on the child side
(target window is the context's parent) the ready flag is false — line 357
resets it after sending the construction-time ping — so a notify issued
before any `__ready` is received is appended to the pending queue and
nothing reaches the transport, contradicting "transmitted directly to the
transport rather than appended to the pending outbound queue". -/
theorem c9_child_not_ready :
    (build cfgChild).1.ready = false
    ∧ notify cfgChild (build cfgChild).1
        (.obj [("method", .str "x"), ("params", .str "p")]) =
      .ok ({ (build cfgChild).1 with
              pendingQueue := [.obj [("method", .str "x"), ("params", .str "p")]] },
           []) :=
  ⟨rfl, rfl⟩

/-- C9 as amended: the child side performs the same handshake as the
parent: construction ends with `ready = false` (the true flag set at line
70 is overwritten by line 357), so any query or notify issued before a
`__ready` notification is received is queued, not transmitted; the only
construction-time difference is the odd transaction id parity. -/
theorem c9_child_queues_before_ready :
  ∀ p : JVal,
    (build cfgChild).1.ready = false
    ∧ (build cfgChild).1.curTranId = 1001
    ∧ notify cfgChild (build cfgChild).1 (.obj [("method", .str "x"), ("params", p)]) =
        .ok ({ (build cfgChild).1 with
                pendingQueue := [.obj [("method", .str "x"), ("params", p)]] },
             [])
    ∧ (∃ st', query cfgChild (build cfgChild).1 queryEchoArg = .ok (st', [])
        ∧ st'.pendingQueue = [childEchoReqMsg]) := by
  intro p
  exact ⟨rfl, rfl, rfl, _, rfl, rfl⟩

/-- C10: a message carrying a truthy id, a falsy `result` and no `error`,
`method` or `callback` field fails every classification test — in
particular `m.result || m.error` is falsy — so the dispatcher drops it:
the state (including the transaction table) is unchanged and no
continuation is invoked. -/
theorem c10_falsy_result_dropped :
  ∀ (st : ChannelState) (idv v : JVal),
    truthy idv = true → truthy v = false →
    onMessage cfgParent st (respEvent idv v) = .ok (st, []) := by
  intro st idv v hid hv
  simp +decide [onMessage, respEvent, cfgParent, scopeTruthy, getField, hid,
    hv, truthy_undefinedVal, List.lookup, JVal.typeof]

/-- Witness for C10: a response `{id: 7, result: false}` is dropped on the
empty ready channel. -/
theorem c10_falsy_result_dropped_w :
    onMessage cfgParent stEmpty (respEvent (.num 7) (.bool false)) =
      .ok (stEmpty, []) :=
  c10_falsy_result_dropped stEmpty (.num 7) (.bool false) (by decide) (by decide)
